import Mathlib

/-!
Shallow embedding of the qPCR calling logic of covidhub
(code/qpcr_processing/protocol.py, code/qpcr_processing/well_results.py,
code/covidhub/constants/enums.py), together with theorems checking the
natural-language specification against it.

Modelling conventions:
* Cq values are rationals; the undetected sentinels (float NaN, the string
  "NaN" and the empty string) are separate constructors of CtVal.
* Python dicts become association lists (insertion order preserved) or,
  for the plate, a key list plus a lookup function; the in-place mutation
  of WellResults.call inside check_square becomes explicit state passing.
* numpy means of lists containing NaN are modelled with Option: none is
  NaN, and every comparison against none is false, as in IEEE semantics.
-/

/-- The Call enum from covidhub/constants/enums.py. -/
inductive Call
  | POS
  | POS_REVIEW
  | POS_CLUSTER
  | POS_HOTWELL
  | NEG
  | INV
  | IND
  | PASS
  | FAIL
  | V2_CLUSTER
deriving DecidableEq, Repr

/-- Call.is_positive: membership in the set of the four positive variants. -/
def Call.is_positive : Call → Bool
  | .POS | .POS_REVIEW | .POS_CLUSTER | .POS_HOTWELL => true
  | _ => false

/-- The ControlType enum from covidhub/constants/enums.py. -/
inductive ControlType
  | NTC
  | PC
  | PBS
  | HRC
deriving DecidableEq, Repr

/-- The Fluor enum (fluorophores). -/
inductive Fluor
  | HEX
  | FAM
  | CY5
deriving DecidableEq, Repr

/-- The MappedWell enum: four qPCR wells per sample well. -/
inductive MappedWell
  | A1
  | A2
  | B1
  | B2
deriving DecidableEq, Repr

/-- The key type of a GeneThresholds dict: the string constant SAMPLE
("sample") or one of the ControlType members. -/
inductive WellType
  | sample
  | ctrl (c : ControlType)
deriving DecidableEq, Repr

/-- The constant SAMPLE from covidhub/constants. -/
def SAMPLE : WellType := WellType.sample

/-- A raw Ct value as it reaches Protocol.isnan: an ordinary numeric value,
a float NaN, the literal string "NaN", or the empty string. -/
inductive CtVal
  | num (q : ℚ)
  | nanFloat
  | nanString
  | emptyString
deriving DecidableEq, Repr

/-- float(v) for a Ct value; only ever evaluated after the isnan guard, so
the sentinel branches are unreachable in the code paths modelled here. -/
def CtVal.toRat : CtVal → ℚ
  | .num q => q
  | _ => 0

abbrev Gene := String

/-- Per-gene cutoffs keyed by SAMPLE and the four control types
(the GeneThresholds dict built by cq_thresholds). -/
structure GeneThresholds where
  sample : Option ℚ
  pc : Option ℚ
  ntc : Option ℚ
  hrc : Option ℚ
  pbs : Option ℚ
deriving DecidableEq, Repr

/-- Indexing a GeneThresholds dict by a well type. -/
def GeneThresholds.get (t : GeneThresholds) : WellType → Option ℚ
  | .sample => t.sample
  | .ctrl .PC => t.pc
  | .ctrl .NTC => t.ntc
  | .ctrl .HRC => t.hrc
  | .ctrl .PBS => t.pbs

/-- cq_thresholds: constructor for GeneThresholds. -/
def cq_thresholds (sample pc ntc hrc pbs : Option ℚ) : GeneThresholds :=
  { sample := sample, pc := pc, ntc := ntc, hrc := hrc, pbs := pbs }

/-- Association-list lookup, the model of indexing a Python dict whose
insertion order is the list order. -/
def lookupGene {α : Type} (g : Gene) : List (Gene × α) → Option α
  | [] => none
  | (g₀, a) :: rest => if g = g₀ then some a else lookupGene g rest

/-- The Protocol dataclass. -/
structure Protocol where
  name : String
  experimental : Bool
  prcl_file : String
  pltd_file : String
  virus_genes : List (Gene × GeneThresholds)
  control_genes : List (Gene × GeneThresholds)
  mapping : List (Fluor × List (MappedWell × Gene))
  background_threshold : ℕ := 200
  radius : ℕ := 1
  pos_cluster_cutoff : ℚ := 10

/-- Protocol.isnan: v == "NaN" or v == "" or math.isnan(v). -/
def Protocol.isnan : CtVal → Bool
  | .nanString => true
  | .emptyString => true
  | .nanFloat => true
  | .num _ => false

/-- Protocol.gene_cutoffs: the merged dict over virus_genes then
control_genes; on a duplicated gene the later (control) entry wins. -/
def Protocol.gene_cutoffs (P : Protocol) (g : Gene) : Option GeneThresholds :=
  match lookupGene g P.control_genes with
  | some t => some t
  | none => lookupGene g P.virus_genes

/-- The keys of the virus_genes dict, in insertion order. -/
def virus_keys (P : Protocol) : List Gene := P.virus_genes.map Prod.fst

/-- The keys of the control_genes dict, in insertion order. -/
def control_keys (P : Protocol) : List Gene := P.control_genes.map Prod.fst

/-- The keys of the merged gene_cutoffs dict (as a membership list). -/
def gene_cutoff_keys (P : Protocol) : List Gene := virus_keys P ++ control_keys P

/-- Protocol.call_ct_value: undetected values are never called; a gene
outside the protocol's cutoff table is never called; a gene with no cutoff
for this well type is called once detected; otherwise the value is called
exactly when it is strictly below the cutoff.  The final raise branch of
the Python elif chain is unreachable over a total order and has no
counterpart here. -/
def Protocol.call_ct_value (P : Protocol) (g : Gene) (v : CtVal)
    (well_type : WellType) : Bool :=
  if Protocol.isnan v then
    false
  else
    match P.gene_cutoffs g with
    | none => false
    | some t =>
      match t.get well_type with
      | none => true
      | some cutoff => if v.toRat ≥ cutoff then false else true

/-- The set comprehension for detected genes in Protocol.call_well. -/
def detected_genes (values : List (Gene × CtVal)) : List Gene :=
  (values.filter (fun gv => !Protocol.isnan gv.2)).map Prod.fst

/-- The set comprehension for called genes in Protocol.call_well and
Protocol.check_control. -/
def called_genes (P : Protocol) (values : List (Gene × CtVal))
    (well_type : WellType) : List Gene :=
  (values.filter (fun gv => Protocol.call_ct_value P gv.1 gv.2 well_type)).map Prod.fst

/-- Protocol.call_well.  Set operations on Python sets become membership
statements over the corresponding lists: intersection with virus_genes is
an existential, issuperset is a universal, and equality with
set(control_genes) is the two inclusions. -/
def Protocol.call_well (P : Protocol) (values : List (Gene × CtVal)) : Call :=
  if ∃ g ∈ detected_genes values, (lookupGene g P.virus_genes).isSome then
    if ∀ g ∈ virus_keys P, g ∈ called_genes P values SAMPLE then
      Call.POS
    else
      Call.IND
  else
    if (∀ g ∈ control_keys P, g ∈ called_genes P values SAMPLE) ∧
        (∀ g ∈ called_genes P values SAMPLE, g ∈ control_keys P) then
      Call.NEG
    else
      Call.INV

/-- Protocol.check_control.  The control_type argument is Optional in the
callers (WellResults.control_type); a value that is not one of the four
ControlType members falls through every branch, and in Python raises (a
KeyError already inside the called-genes comprehension, or the explicit
ValueError), modelled as Except.error. -/
def Protocol.check_control (P : Protocol) (values : List (Gene × CtVal))
    (control_type : Option ControlType) : Except String Call :=
  match control_type with
  | some ct =>
    let called := called_genes P values (WellType.ctrl ct)
    if ct = ControlType.NTC ∨ ct = ControlType.PBS then
      Except.ok (if called.length = 0 then Call.PASS else Call.FAIL)
    else if ct = ControlType.PC then
      Except.ok
        (if (∀ g ∈ gene_cutoff_keys P, g ∈ called) ∧
            (∀ g ∈ called, g ∈ gene_cutoff_keys P) then Call.PASS else Call.FAIL)
    else if ct = ControlType.HRC then
      Except.ok
        (if (∀ g ∈ control_keys P, g ∈ called) ∧
            (∀ g ∈ called, g ∈ control_keys P) then Call.PASS else Call.FAIL)
    else
      Except.error "Unrecognized control type"
  | none => Except.error "Unrecognized control type"

/-- The SOP_V1 protocol instance. -/
def SOP_V1 : Protocol :=
  { name := "SOP-V1"
    experimental := false
    prcl_file := "Covid19_protocol.prcl"
    pltd_file := "Covid19_platelayout.pltd"
    radius := 0
    virus_genes :=
      [("RdRp", cq_thresholds (some 40) (some 40) none none none),
       ("E", cq_thresholds (some 40) (some 40) none none none)]
    control_genes :=
      [("RNAse P", cq_thresholds (some 40) (some 40) none (some 40) none)]
    mapping :=
      [(Fluor.FAM, [(MappedWell.A1, "RdRp"), (MappedWell.A2, "E"),
                    (MappedWell.B1, "RNAse P")])] }

/-- The SOP_V2 protocol instance. -/
def SOP_V2 : Protocol :=
  { name := "SOP-V2"
    experimental := false
    prcl_file := "Covid19-LUNA_protocol.prcl"
    pltd_file := "Covid19-v2_platelayout.pltd"
    virus_genes :=
      [("N", cq_thresholds (some 40) (some 38) none none none),
       ("E", cq_thresholds (some 40) (some 38) none none none)]
    control_genes :=
      [("RNAse P", cq_thresholds (some 36) (some 38) none (some 36) none)]
    mapping :=
      [(Fluor.FAM, [(MappedWell.A1, "N"), (MappedWell.A2, "E")]),
       (Fluor.HEX, [(MappedWell.B1, "RNAse P")])] }

/-- The UDGprotocol instance. -/
def UDGprotocol : Protocol :=
  { name := "UDGprotocol"
    experimental := true
    prcl_file := "Covid19-UDG.prcl"
    pltd_file := "Covid19-v2_platelayout.pltd"
    background_threshold := 300
    virus_genes :=
      [("N", cq_thresholds (some 40) (some 38) none none none),
       ("E", cq_thresholds (some 40) (some 38) none none none)]
    control_genes :=
      [("RNAse P", cq_thresholds (some 36) (some 38) none (some 36) none)]
    mapping :=
      [(Fluor.FAM, [(MappedWell.A1, "N"), (MappedWell.A2, "E")]),
       (Fluor.HEX, [(MappedWell.B1, "RNAse P")])] }

/-- The V3Protocol dataclass, extending Protocol. -/
structure V3Protocol extends Protocol where
  hot_well_radius : ℕ := 3
  hot_well_cutoff : ℚ := 22

/-- V3Protocol.call_well: reroutes the Indeterminate result of the base
classifier to Positive-needs-review, and is otherwise the base call. -/
def V3Protocol.call_well (P : V3Protocol) (values : List (Gene × CtVal)) : Call :=
  let super_call := Protocol.call_well P.toProtocol values
  if super_call = Call.IND then Call.POS_REVIEW else super_call

/-- The SOP_V3 protocol instance. -/
def SOP_V3 : V3Protocol :=
  { name := "SOP-V3"
    experimental := false
    prcl_file := "Covid19-LUNA_protocol.prcl"
    pltd_file := "Covid19-v2_platelayout.pltd"
    background_threshold := 300
    pos_cluster_cutoff := 15
    virus_genes :=
      [("N", cq_thresholds (some 40) (some 38) none none none),
       ("E", cq_thresholds (some 40) (some 38) none none none)]
    control_genes :=
      [("RNAse P", cq_thresholds none (some 38) none (some 36) none)]
    mapping :=
      [(Fluor.FAM, [(MappedWell.A1, "N"), (MappedWell.A2, "E")]),
       (Fluor.HEX, [(MappedWell.B1, "RNAse P")])] }

/-- The WellResults dataclass (well_results.py).  gene_cts maps every gene
to its Ct value; the processing code fills every gene of the protocol with
a float, using NaN for blank readings, so the map is total and none marks
a NaN (undetected or missing) value. -/
structure WellResults where
  accession : String := "MISSING"
  call : Call
  gene_cts : Gene → Option ℚ
  control_type : Option ControlType := none

/-- Reassigning the call field of a WellResults object. -/
def setCall (r : WellResults) (c : Call) : WellResults := { r with call := c }

/-- A well identifier: the ord of the row letter and the column number, as
parsed by check_square from the canonical well-id strings such as A1. -/
structure WellId where
  row : ℤ
  col : ℤ
deriving DecidableEq, Repr

/-- The dict mapping well ids to WellResults: the key list in insertion
order plus the lookup function (values at non-keys are irrelevant). -/
structure PlateMap where
  keys : List WellId
  res : WellId → WellResults

/-- Turning a list of Option values into an Option list: none as soon as
any entry is none (NaN propagation). -/
def optValues : List (Option ℚ) → Option (List ℚ)
  | [] => some []
  | none :: _ => none
  | some q :: rest => (optValues rest).map (q :: ·)

/-- np.mean over a list of possibly-NaN values: NaN if any entry is NaN
or the list is empty, otherwise the arithmetic mean. -/
def npMean (vals : List (Option ℚ)) : Option ℚ :=
  match optValues vals with
  | none => none
  | some [] => none
  | some l => some (l.sum / l.length)

/-- Protocol.compare_wells: mean of the virus-gene Cts of the first well
minus that of the second exceeds the cutoff; a NaN mean (any NaN gene, or
no virus genes) makes the comparison false. -/
def Protocol.compare_wells (P : Protocol) (results other_results : WellResults)
    (cutoff : ℚ) : Bool :=
  let well_mean := npMean ((virus_keys P).map results.gene_cts)
  let other_mean := npMean ((virus_keys P).map other_results.gene_cts)
  match well_mean, other_mean with
  | some a, some b => decide (a - b > cutoff)
  | _, _ => false

/-- V3Protocol.compare_wells: per-gene differences combined with OR; a NaN
difference compares false for that gene. -/
def V3Protocol.compare_wells (P : V3Protocol) (results other_results : WellResults)
    (cutoff : ℚ) : Bool :=
  (virus_keys P.toProtocol).any (fun g =>
    match results.gene_cts g, other_results.gene_cts g with
    | some a, some b => decide (a - b > cutoff)
    | _, _ => false)

/-- Python range(lo, lo + n) over integers, in ascending order. -/
def intRange (lo : ℤ) : ℕ → List ℤ
  | 0 => []
  | n + 1 => lo :: intRange (lo + 1) n

/-- The (2r+1) x (2r+1) square of well ids centred at a well, in the
row-major order of the two nested for loops of check_square. -/
def squareWells (w : WellId) (radius : ℕ) : List WellId :=
  ((intRange (w.row - radius) (2 * radius + 1)).map (fun r =>
    (intRange (w.col - radius) (2 * radius + 1)).map (fun c =>
      WellId.mk r c))).flatten

/-- The inner double loop of check_square for one candidate well: fold
over the neighbour records, re-reading the candidate's own (possibly just
flagged) call before each comparison, exactly as the Python loop does. -/
def scan_neighbors (cmp : WellResults → WellResults → ℚ → Bool) (cutoff : ℚ)
    (flag : Call) : WellResults → List WellResults → WellResults
  | results, [] => results
  | results, other :: rest =>
    if results.call.is_positive && cmp results other cutoff then
      scan_neighbors cmp cutoff flag (setCall results flag) rest
    else
      scan_neighbors cmp cutoff flag results rest

/-- One iteration of the outer loop of check_square: skip a non-positive
candidate, otherwise scan its square (restricted to wells present in the
mapping, the candidate itself included) and store the resulting record. -/
def process_well (cmp : WellResults → WellResults → ℚ → Bool) (pm : PlateMap)
    (radius : ℕ) (cutoff : ℚ) (flag : Call) (w : WellId) : PlateMap :=
  let results := pm.res w
  if !results.call.is_positive then
    pm
  else
    let neighbors := (squareWells w radius).filter (fun o => o ∈ pm.keys)
    let final := scan_neighbors cmp cutoff flag results (neighbors.map pm.res)
    { pm with res := Function.update pm.res w final }

/-- The outer loop of check_square over a given iteration order. -/
def check_square_from (cmp : WellResults → WellResults → ℚ → Bool) (radius : ℕ)
    (cutoff : ℚ) (flag : Call) : PlateMap → List WellId → PlateMap
  | pm, [] => pm
  | pm, w :: rest =>
    check_square_from cmp radius cutoff flag
      (process_well cmp pm radius cutoff flag w) rest

/-- Protocol.check_square.  The cmp parameter models the dynamic dispatch
of self.compare_wells (base or V3); the wells are visited in dict order. -/
def check_square (cmp : WellResults → WellResults → ℚ → Bool) (pm : PlateMap)
    (radius : ℕ) (cutoff : ℚ) (flag : Call) : PlateMap :=
  check_square_from cmp radius cutoff flag pm pm.keys

/-- Protocol.flag_contamination: one positive-cluster pass. -/
def Protocol.flag_contamination (P : Protocol) (pm : PlateMap) : PlateMap :=
  check_square (Protocol.compare_wells P) pm P.radius P.pos_cluster_cutoff
    Call.POS_CLUSTER

/-- V3Protocol.flag_contamination: a hot-well pass followed by a
positive-cluster pass. -/
def V3Protocol.flag_contamination (P : V3Protocol) (pm : PlateMap) : PlateMap :=
  check_square (V3Protocol.compare_wells P)
    (check_square (V3Protocol.compare_wells P) pm P.hot_well_radius
      P.hot_well_cutoff Call.POS_HOTWELL)
    P.radius P.pos_cluster_cutoff Call.POS_CLUSTER

/-! ### Spec-level predicates and bridge lemmas -/

/-- A gene is detected in a well's value map: some entry for it holds a
non-NaN value. -/
def DetectedIn (values : List (Gene × CtVal)) (g : Gene) : Prop :=
  ∃ v, (g, v) ∈ values ∧ Protocol.isnan v = false

/-- A gene is called in a well's value map under a given well type. -/
def CalledIn (P : Protocol) (values : List (Gene × CtVal)) (well_type : WellType)
    (g : Gene) : Prop :=
  ∃ v, (g, v) ∈ values ∧ Protocol.call_ct_value P g v well_type = true

theorem lookupGene_isSome_iff {α : Type} (g : Gene) (l : List (Gene × α)) :
    (lookupGene g l).isSome = true ↔ g ∈ l.map Prod.fst := by
  induction l with
  | nil => simp [lookupGene]
  | cons p rest ih =>
    obtain ⟨g₀, a⟩ := p
    by_cases h : g = g₀
    · simp [lookupGene, h]
    · simp [lookupGene, h, ih]

theorem mem_detected_genes (values : List (Gene × CtVal)) (g : Gene) :
    g ∈ detected_genes values ↔ DetectedIn values g := by
  constructor
  · intro h
    obtain ⟨⟨g₁, v⟩, hmem, hfst⟩ := List.mem_map.mp h
    obtain ⟨hv, hnan⟩ := List.mem_filter.mp hmem
    cases hfst
    exact ⟨v, hv, by simpa using hnan⟩
  · rintro ⟨v, hv, hnan⟩
    exact List.mem_map.mpr ⟨(g, v), List.mem_filter.mpr ⟨hv, by simp [hnan]⟩, rfl⟩

theorem mem_called_genes (P : Protocol) (values : List (Gene × CtVal))
    (well_type : WellType) (g : Gene) :
    g ∈ called_genes P values well_type ↔ CalledIn P values well_type g := by
  constructor
  · intro h
    obtain ⟨⟨g₁, v⟩, hmem, hfst⟩ := List.mem_map.mp h
    obtain ⟨hv, hc⟩ := List.mem_filter.mp hmem
    cases hfst
    exact ⟨v, hv, hc⟩
  · rintro ⟨v, hv, hc⟩
    exact List.mem_map.mpr ⟨(g, v), List.mem_filter.mpr ⟨hv, hc⟩, rfl⟩

/-- The base classifier only ever returns one of its four sample calls. -/
theorem call_well_cases (P : Protocol) (values : List (Gene × CtVal)) :
    Protocol.call_well P values = Call.POS ∨ Protocol.call_well P values = Call.IND ∨
    Protocol.call_well P values = Call.NEG ∨ Protocol.call_well P values = Call.INV := by
  rw [Protocol.call_well]
  split_ifs <;> simp

/-! ### Claim theorems -/

/-- Claim C4: the per-gene called predicate returns true iff the value is
detected (not a NaN sentinel) and the cutoff for the gene and role is
either absent or strictly above the value; a gene outside the protocol's
cutoff table is never called (false, not an error), and an undetected
value is false regardless of anything else. -/
theorem call_ct_value_spec (P : Protocol) (g : Gene) (v : CtVal) (well_type : WellType) :
    (Protocol.call_ct_value P g v well_type = true ↔
      Protocol.isnan v = false ∧ ∃ t, P.gene_cutoffs g = some t ∧
        (t.get well_type = none ∨ ∃ c, t.get well_type = some c ∧ v.toRat < c)) ∧
    (P.gene_cutoffs g = none → Protocol.call_ct_value P g v well_type = false) ∧
    (Protocol.isnan v = true → Protocol.call_ct_value P g v well_type = false) := by
  refine ⟨?_, ?_, ?_⟩
  · by_cases hn : Protocol.isnan v = true
    · simp [Protocol.call_ct_value, hn]
    · cases hg : P.gene_cutoffs g with
      | none => simp [Protocol.call_ct_value, hn, hg]
      | some t =>
        cases hw : t.get well_type with
        | none => simp [Protocol.call_ct_value, hn, hg, hw]
        | some c =>
          by_cases hge : v.toRat ≥ c
          · simp [Protocol.call_ct_value, hn, hg, hw, hge, not_lt.mpr hge]
          · simp [Protocol.call_ct_value, hn, hg, hw, hge, not_le.mp hge]
  · intro hg
    by_cases hn : Protocol.isnan v = true <;>
      simp [Protocol.call_ct_value, hn, hg]
  · intro hn
    simp [Protocol.call_ct_value, hn]

/-- Claim C4 witness: a gene absent from the protocol is not called, and a
NaN value is not called. -/
theorem call_ct_value_spec_witness :
    Protocol.call_ct_value SOP_V2 "ORF1ab" (CtVal.num 20) SAMPLE = false ∧
    Protocol.call_ct_value SOP_V2 "N" CtVal.nanFloat SAMPLE = false :=
  ⟨(call_ct_value_spec SOP_V2 "ORF1ab" (CtVal.num 20) SAMPLE).2.1
      (by simp [Protocol.gene_cutoffs, SOP_V2, lookupGene]),
   (call_ct_value_spec SOP_V2 "N" CtVal.nanFloat SAMPLE).2.2 rfl⟩

/-- Claim C6: the V3 sample classifier returns Positive-needs-review
exactly when the base classifier returns Indeterminate, agrees with the
base classifier otherwise, and never returns a bare Indeterminate. -/
theorem v3_call_well_spec (P : V3Protocol) (values : List (Gene × CtVal)) :
    (V3Protocol.call_well P values = Call.POS_REVIEW ↔
      Protocol.call_well P.toProtocol values = Call.IND) ∧
    (Protocol.call_well P.toProtocol values ≠ Call.IND →
      V3Protocol.call_well P values = Protocol.call_well P.toProtocol values) ∧
    V3Protocol.call_well P values ≠ Call.IND := by
  have hc := call_well_cases P.toProtocol values
  by_cases hi : Protocol.call_well P.toProtocol values = Call.IND
  · refine ⟨⟨fun _ => hi, fun _ => ?_⟩, fun hne => absurd hi hne, ?_⟩ <;>
      simp [V3Protocol.call_well, hi]
  · have hv : V3Protocol.call_well P values = Protocol.call_well P.toProtocol values := by
      simp [V3Protocol.call_well, hi]
    refine ⟨⟨fun hpr => ?_, fun h => absurd h hi⟩, fun _ => hv, by rw [hv]; exact hi⟩
    rw [hv] at hpr
    rcases hc with h | h | h | h <;> rw [h] at hpr <;> exact absurd hpr (by simp)

/-- Claim C6 witness: on a well with only the control gene detected the V3
classifier agrees with the base classifier. -/
theorem v3_call_well_spec_witness :
    V3Protocol.call_well SOP_V3
        [("N", CtVal.nanFloat), ("E", CtVal.nanFloat), ("RNAse P", CtVal.num 35.4)] =
      Protocol.call_well SOP_V3.toProtocol
        [("N", CtVal.nanFloat), ("E", CtVal.nanFloat), ("RNAse P", CtVal.num 35.4)] :=
  (v3_call_well_spec SOP_V3
    [("N", CtVal.nanFloat), ("E", CtVal.nanFloat), ("RNAse P", CtVal.num 35.4)]).2.1
    (by simp [Protocol.call_well, detected_genes, called_genes, Protocol.call_ct_value,
      Protocol.isnan, Protocol.gene_cutoffs, lookupGene, virus_keys, control_keys,
      SOP_V3, cq_thresholds, SAMPLE, GeneThresholds.get, CtVal.toRat])

/-- Claim C7: the four concrete SOP-V2 scenarios of the specification, and
the same four inputs under SOP-V3, where only the indeterminate case
changes to Positive-needs-review. -/
theorem concrete_calls_spec :
    Protocol.call_well SOP_V2
        [("N", CtVal.nanFloat), ("E", CtVal.nanFloat), ("RNAse P", CtVal.nanFloat)] = Call.INV ∧
    Protocol.call_well SOP_V2
        [("N", CtVal.nanFloat), ("E", CtVal.nanFloat), ("RNAse P", CtVal.num 35.4)] = Call.NEG ∧
    Protocol.call_well SOP_V2
        [("N", CtVal.num 31.4), ("E", CtVal.num 32.1), ("RNAse P", CtVal.nanFloat)] = Call.POS ∧
    Protocol.call_well SOP_V2
        [("N", CtVal.nanString), ("E", CtVal.num 42.1), ("RNAse P", CtVal.num 35.4)] = Call.IND ∧
    V3Protocol.call_well SOP_V3
        [("N", CtVal.nanFloat), ("E", CtVal.nanFloat), ("RNAse P", CtVal.nanFloat)] = Call.INV ∧
    V3Protocol.call_well SOP_V3
        [("N", CtVal.nanFloat), ("E", CtVal.nanFloat), ("RNAse P", CtVal.num 35.4)] = Call.NEG ∧
    V3Protocol.call_well SOP_V3
        [("N", CtVal.num 31.4), ("E", CtVal.num 32.1), ("RNAse P", CtVal.nanFloat)] = Call.POS ∧
    V3Protocol.call_well SOP_V3
        [("N", CtVal.nanString), ("E", CtVal.num 42.1), ("RNAse P", CtVal.num 35.4)] =
      Call.POS_REVIEW := by
  refine ⟨?_, ?_, ?_, ?_, ?_, ?_, ?_, ?_⟩ <;>
    simp [Protocol.call_well, V3Protocol.call_well, detected_genes, called_genes,
      Protocol.call_ct_value, Protocol.isnan, Protocol.gene_cutoffs, lookupGene,
      virus_keys, control_keys, SOP_V2, SOP_V3, cq_thresholds, SAMPLE,
      GeneThresholds.get, CtVal.toRat] <;> norm_num

/-- Claim C1: the sample classifier returns Positive when a virus gene is
detected and every virus gene is called, Indeterminate when a virus gene
is detected but not all are called, Negative when no virus gene is
detected and the called set is exactly the control-gene set, and Invalid
when no virus gene is detected and the called set differs from the
control-gene set. -/
theorem call_well_spec (P : Protocol) (values : List (Gene × CtVal)) :
    ((∃ g ∈ virus_keys P, DetectedIn values g) →
      ((∀ g ∈ virus_keys P, CalledIn P values SAMPLE g) →
        Protocol.call_well P values = Call.POS) ∧
      ((¬ ∀ g ∈ virus_keys P, CalledIn P values SAMPLE g) →
        Protocol.call_well P values = Call.IND)) ∧
    ((¬ ∃ g ∈ virus_keys P, DetectedIn values g) →
      ((∀ g, CalledIn P values SAMPLE g ↔ g ∈ control_keys P) →
        Protocol.call_well P values = Call.NEG) ∧
      ((¬ ∀ g, CalledIn P values SAMPLE g ↔ g ∈ control_keys P) →
        Protocol.call_well P values = Call.INV)) := by
  have hc1 : (∃ g ∈ detected_genes values, (lookupGene g P.virus_genes).isSome = true) ↔
      ∃ g ∈ virus_keys P, DetectedIn values g := by
    constructor
    · rintro ⟨g, hg, hsome⟩
      exact ⟨g, (lookupGene_isSome_iff g P.virus_genes).mp hsome,
        (mem_detected_genes values g).mp hg⟩
    · rintro ⟨g, hg, hd⟩
      exact ⟨g, (mem_detected_genes values g).mpr hd,
        (lookupGene_isSome_iff g P.virus_genes).mpr hg⟩
  have hc2 : (∀ g ∈ virus_keys P, g ∈ called_genes P values SAMPLE) ↔
      ∀ g ∈ virus_keys P, CalledIn P values SAMPLE g := by
    constructor
    · intro h g hg
      exact (mem_called_genes P values SAMPLE g).mp (h g hg)
    · intro h g hg
      exact (mem_called_genes P values SAMPLE g).mpr (h g hg)
  have hc3 : ((∀ g ∈ control_keys P, g ∈ called_genes P values SAMPLE) ∧
      (∀ g ∈ called_genes P values SAMPLE, g ∈ control_keys P)) ↔
      ∀ g, CalledIn P values SAMPLE g ↔ g ∈ control_keys P := by
    constructor
    · rintro ⟨hsub, hsup⟩ g
      constructor
      · intro hcall
        exact hsup g ((mem_called_genes P values SAMPLE g).mpr hcall)
      · intro hmem
        exact (mem_called_genes P values SAMPLE g).mp (hsub g hmem)
    · intro h
      constructor
      · intro g hg
        exact (mem_called_genes P values SAMPLE g).mpr ((h g).mpr hg)
      · intro g hg
        exact (h g).mp ((mem_called_genes P values SAMPLE g).mp hg)
  refine ⟨fun hdet => ⟨fun hall => ?_, fun hnall => ?_⟩,
    fun hndet => ⟨fun heq => ?_, fun hneq => ?_⟩⟩
  · rw [Protocol.call_well, if_pos (hc1.mpr hdet), if_pos (hc2.mpr hall)]
  · rw [Protocol.call_well, if_pos (hc1.mpr hdet),
      if_neg (fun h => hnall (hc2.mp h))]
  · rw [Protocol.call_well, if_neg (fun h => hndet (hc1.mp h)),
      if_pos (hc3.mpr heq)]
  · rw [Protocol.call_well, if_neg (fun h => hndet (hc1.mp h)),
      if_neg (fun h => hneq (hc3.mp h))]

/-- Claim C1 witness: a well with both virus genes detected and called is
Positive under SOP-V2. -/
theorem call_well_spec_witness :
    Protocol.call_well SOP_V2
      [("N", CtVal.num 31.4), ("E", CtVal.num 32.1), ("RNAse P", CtVal.nanFloat)] =
      Call.POS :=
  ((call_well_spec SOP_V2
      [("N", CtVal.num 31.4), ("E", CtVal.num 32.1), ("RNAse P", CtVal.nanFloat)]).1
    ⟨"N", by simp [virus_keys, SOP_V2],
      CtVal.num 31.4, by simp, rfl⟩).1
    (by
      intro g hg
      simp only [virus_keys, SOP_V2, List.map_cons, List.map_nil, List.mem_cons,
        List.not_mem_nil, or_false] at hg
      rcases hg with rfl | rfl
      · exact ⟨CtVal.num 31.4, by simp,
          by simp [Protocol.call_ct_value, Protocol.isnan, Protocol.gene_cutoffs,
              lookupGene, SOP_V2, cq_thresholds, SAMPLE, GeneThresholds.get,
              CtVal.toRat] <;> norm_num⟩
      · exact ⟨CtVal.num 32.1, by simp,
          by simp [Protocol.call_ct_value, Protocol.isnan, Protocol.gene_cutoffs,
              lookupGene, SOP_V2, cq_thresholds, SAMPLE, GeneThresholds.get,
              CtVal.toRat] <;> norm_num⟩)

/-- Claim C5: the control classifier passes NTC and PBS exactly when no
gene is called, passes PC exactly when the called set is the full cutoff
table, passes HRC exactly when the called set is exactly the control-gene
set, returns Fail in each of these cases otherwise, and signals a hard
error on a value that is not a recognised ControlType. -/
theorem check_control_spec (P : Protocol) (values : List (Gene × CtVal)) :
    (∀ ct, ct = ControlType.NTC ∨ ct = ControlType.PBS →
      (Protocol.check_control P values (some ct) = Except.ok Call.PASS ↔
        ¬ ∃ g, CalledIn P values (WellType.ctrl ct) g) ∧
      ((∃ g, CalledIn P values (WellType.ctrl ct) g) →
        Protocol.check_control P values (some ct) = Except.ok Call.FAIL)) ∧
    ((Protocol.check_control P values (some ControlType.PC) = Except.ok Call.PASS ↔
        ∀ g, CalledIn P values (WellType.ctrl ControlType.PC) g ↔ g ∈ gene_cutoff_keys P) ∧
      ((¬ ∀ g, CalledIn P values (WellType.ctrl ControlType.PC) g ↔ g ∈ gene_cutoff_keys P) →
        Protocol.check_control P values (some ControlType.PC) = Except.ok Call.FAIL)) ∧
    ((Protocol.check_control P values (some ControlType.HRC) = Except.ok Call.PASS ↔
        ∀ g, CalledIn P values (WellType.ctrl ControlType.HRC) g ↔ g ∈ control_keys P) ∧
      ((¬ ∀ g, CalledIn P values (WellType.ctrl ControlType.HRC) g ↔ g ∈ control_keys P) →
        Protocol.check_control P values (some ControlType.HRC) = Except.ok Call.FAIL)) ∧
    (∃ e, Protocol.check_control P values none = Except.error e) := by
  have hempty : ∀ ct, ((called_genes P values (WellType.ctrl ct)).length = 0 ↔
      ¬ ∃ g, CalledIn P values (WellType.ctrl ct) g) := by
    intro ct
    rw [List.length_eq_zero, List.eq_nil_iff_forall_not_mem]
    constructor
    · rintro h ⟨g, hg⟩
      exact h g ((mem_called_genes P values (WellType.ctrl ct) g).mpr hg)
    · intro h g hg
      exact h ⟨g, (mem_called_genes P values (WellType.ctrl ct) g).mp hg⟩
  have hset : ∀ ct (keys : List Gene),
      (((∀ g ∈ keys, g ∈ called_genes P values (WellType.ctrl ct)) ∧
        (∀ g ∈ called_genes P values (WellType.ctrl ct), g ∈ keys)) ↔
      ∀ g, CalledIn P values (WellType.ctrl ct) g ↔ g ∈ keys) := by
    intro ct keys
    constructor
    · rintro ⟨hsub, hsup⟩ g
      exact ⟨fun hc => hsup g ((mem_called_genes P values (WellType.ctrl ct) g).mpr hc),
        fun hm => (mem_called_genes P values (WellType.ctrl ct) g).mp (hsub g hm)⟩
    · intro h
      exact ⟨fun g hg => (mem_called_genes P values (WellType.ctrl ct) g).mpr ((h g).mpr hg),
        fun g hg => (h g).mp ((mem_called_genes P values (WellType.ctrl ct) g).mp hg)⟩
  refine ⟨?_, ⟨?_, ?_⟩, ⟨?_, ?_⟩, ⟨"Unrecognized control type", rfl⟩⟩
  · rintro ct (rfl | rfl) <;>
      constructor
    · rw [Protocol.check_control]
      simp only [reduceCtorEq, or_false, if_pos rfl, reduceIte]
      constructor
      · intro h
        by_cases hl : (called_genes P values (WellType.ctrl ControlType.NTC)).length = 0
        · exact (hempty ControlType.NTC).mp hl
        · rw [if_neg hl] at h
          exact absurd (Except.ok.inj h) (by simp)
      · intro h
        rw [if_pos ((hempty ControlType.NTC).mpr h)]
    · intro h
      rw [Protocol.check_control]
      simp only [reduceCtorEq, or_false, if_pos rfl, reduceIte]
      rw [if_neg (fun hl => ((hempty ControlType.NTC).mp hl) h)]
    · rw [Protocol.check_control]
      simp only [reduceCtorEq, false_or, if_pos rfl, reduceIte]
      constructor
      · intro h
        by_cases hl : (called_genes P values (WellType.ctrl ControlType.PBS)).length = 0
        · exact (hempty ControlType.PBS).mp hl
        · rw [if_neg hl] at h
          exact absurd (Except.ok.inj h) (by simp)
      · intro h
        rw [if_pos ((hempty ControlType.PBS).mpr h)]
    · intro h
      rw [Protocol.check_control]
      simp only [reduceCtorEq, false_or, if_pos rfl, reduceIte]
      rw [if_neg (fun hl => ((hempty ControlType.PBS).mp hl) h)]
  · rw [Protocol.check_control]
    simp only [reduceCtorEq, or_self, if_neg, if_pos rfl, reduceIte]
    constructor
    · intro h
      by_cases hc : ((∀ g ∈ gene_cutoff_keys P,
            g ∈ called_genes P values (WellType.ctrl ControlType.PC)) ∧
          (∀ g ∈ called_genes P values (WellType.ctrl ControlType.PC),
            g ∈ gene_cutoff_keys P))
      · exact (hset ControlType.PC (gene_cutoff_keys P)).mp hc
      · rw [if_neg hc] at h
        exact absurd (Except.ok.inj h) (by simp)
    · intro h
      rw [if_pos ((hset ControlType.PC (gene_cutoff_keys P)).mpr h)]
  · intro h
    rw [Protocol.check_control]
    simp only [reduceCtorEq, or_self, if_pos rfl, reduceIte]
    rw [if_neg (fun hc => h ((hset ControlType.PC (gene_cutoff_keys P)).mp hc))]
  · rw [Protocol.check_control]
    simp only [reduceCtorEq, or_self, if_pos rfl, reduceIte]
    constructor
    · intro h
      by_cases hc : ((∀ g ∈ control_keys P,
            g ∈ called_genes P values (WellType.ctrl ControlType.HRC)) ∧
          (∀ g ∈ called_genes P values (WellType.ctrl ControlType.HRC),
            g ∈ control_keys P))
      · exact (hset ControlType.HRC (control_keys P)).mp hc
      · rw [if_neg hc] at h
        exact absurd (Except.ok.inj h) (by simp)
    · intro h
      rw [if_pos ((hset ControlType.HRC (control_keys P)).mpr h)]
  · intro h
    rw [Protocol.check_control]
    simp only [reduceCtorEq, or_self, if_pos rfl, reduceIte]
    rw [if_neg (fun hc => h ((hset ControlType.HRC (control_keys P)).mp hc))]

/-- Claim C5 witness: an empty value map passes the no-template control. -/
theorem check_control_spec_witness :
    Protocol.check_control SOP_V2 [] (some ControlType.NTC) = Except.ok Call.PASS :=
  ((check_control_spec SOP_V2 []).1 ControlType.NTC (Or.inl rfl)).1.mpr
    (by rintro ⟨g, v, hv, _⟩; exact absurd hv (List.not_mem_nil _))

/-! ### Lemmas about the contamination scanner -/

/-- The neighbour list a candidate well is compared against: the square
around it, restricted to wells present in the mapping. -/
def neighborsOf (pm : PlateMap) (radius : ℕ) (w : WellId) : List WellId :=
  (squareWells w radius).filter (fun o => o ∈ pm.keys)

/-- Whether some neighbour would trigger the contamination flag for a
candidate well, judged on the current records of the plate. -/
def wouldFlag (cmp : WellResults → WellResults → ℚ → Bool) (pm : PlateMap)
    (radius : ℕ) (cutoff : ℚ) (x : WellId) : Bool :=
  (neighborsOf pm radius x).any (fun o => cmp (pm.res x) (pm.res o) cutoff)

/-- The record a well ends up with after one scan pass, as a function of
the plate state at the start of the pass. -/
def stepRes (cmp : WellResults → WellResults → ℚ → Bool) (pm : PlateMap)
    (radius : ℕ) (cutoff : ℚ) (flag : Call) (x : WellId) : WellResults :=
  if (pm.res x).call.is_positive && wouldFlag cmp pm radius cutoff x then
    setCall (pm.res x) flag
  else
    pm.res x

theorem setCall_call (r : WellResults) (c : Call) : (setCall r c).call = c := rfl

theorem setCall_gene_cts (r : WellResults) (c : Call) :
    (setCall r c).gene_cts = r.gene_cts := rfl

theorem setCall_eq_self (r : WellResults) (c : Call) (h : r.call = c) :
    setCall r c = r := by
  cases r
  cases h
  rfl

theorem setCall_setCall (r : WellResults) (c₁ c₂ : Call) :
    setCall (setCall r c₁) c₂ = setCall r c₂ := rfl

theorem scan_neighbors_of_call_eq_flag (cmp : WellResults → WellResults → ℚ → Bool)
    (cutoff : ℚ) (flag : Call) (r : WellResults) (h : r.call = flag)
    (os : List WellResults) : scan_neighbors cmp cutoff flag r os = r := by
  induction os with
  | nil => rfl
  | cons o rest ih =>
    rw [scan_neighbors]
    split
    · rw [setCall_eq_self r flag h]
      exact ih
    · exact ih

theorem scan_neighbors_not_positive (cmp : WellResults → WellResults → ℚ → Bool)
    (cutoff : ℚ) (flag : Call) (r : WellResults) (h : r.call.is_positive = false)
    (os : List WellResults) : scan_neighbors cmp cutoff flag r os = r := by
  induction os with
  | nil => rfl
  | cons o rest ih =>
    rw [scan_neighbors, if_neg (by simp [h])]
    exact ih

theorem scan_neighbors_positive (cmp : WellResults → WellResults → ℚ → Bool)
    (cutoff : ℚ) (flag : Call) (r : WellResults) (h : r.call.is_positive = true)
    (os : List WellResults) :
    scan_neighbors cmp cutoff flag r os =
      if os.any (fun o => cmp r o cutoff) then setCall r flag else r := by
  induction os with
  | nil => simp [scan_neighbors]
  | cons o rest ih =>
    by_cases hc : cmp r o cutoff = true
    · rw [scan_neighbors, if_pos (by simp [h, hc]),
        scan_neighbors_of_call_eq_flag cmp cutoff flag _ rfl rest]
      simp [hc]
    · rw [scan_neighbors, if_neg (by simp [hc]), ih]
      simp [Bool.eq_false_iff.mpr hc]

theorem scan_neighbors_cases (cmp : WellResults → WellResults → ℚ → Bool)
    (cutoff : ℚ) (flag : Call) (r : WellResults) (os : List WellResults) :
    scan_neighbors cmp cutoff flag r os = r ∨
      scan_neighbors cmp cutoff flag r os = setCall r flag := by
  cases hp : r.call.is_positive with
  | false => exact Or.inl (scan_neighbors_not_positive cmp cutoff flag r hp os)
  | true =>
    rw [scan_neighbors_positive cmp cutoff flag r hp os]
    split
    · exact Or.inr rfl
    · exact Or.inl rfl

theorem process_well_keys (cmp : WellResults → WellResults → ℚ → Bool)
    (pm : PlateMap) (radius : ℕ) (cutoff : ℚ) (flag : Call) (w : WellId) :
    (process_well cmp pm radius cutoff flag w).keys = pm.keys := by
  rw [process_well]
  split <;> rfl

theorem process_well_res_ne (cmp : WellResults → WellResults → ℚ → Bool)
    (pm : PlateMap) (radius : ℕ) (cutoff : ℚ) (flag : Call) (w x : WellId)
    (h : x ≠ w) : (process_well cmp pm radius cutoff flag w).res x = pm.res x := by
  rw [process_well]
  split
  · rfl
  · exact Function.update_noteq h _ pm.res

theorem process_well_res_self (cmp : WellResults → WellResults → ℚ → Bool)
    (pm : PlateMap) (radius : ℕ) (cutoff : ℚ) (flag : Call) (w : WellId) :
    (process_well cmp pm radius cutoff flag w).res w =
      if (pm.res w).call.is_positive then
        scan_neighbors cmp cutoff flag (pm.res w) ((neighborsOf pm radius w).map pm.res)
      else
        pm.res w := by
  rw [process_well]
  by_cases h : (pm.res w).call.is_positive = true
  · rw [if_neg (by simp [h]), if_pos h]
    exact Function.update_same w _ pm.res
  · rw [if_pos (by simp [Bool.eq_false_iff.mpr h]), if_neg h]

theorem check_square_from_keys (cmp : WellResults → WellResults → ℚ → Bool)
    (radius : ℕ) (cutoff : ℚ) (flag : Call) (ws : List WellId) (pm : PlateMap) :
    (check_square_from cmp radius cutoff flag pm ws).keys = pm.keys := by
  induction ws generalizing pm with
  | nil => rfl
  | cons w rest ih =>
    rw [check_square_from, ih, process_well_keys]

theorem check_square_from_res_not_mem (cmp : WellResults → WellResults → ℚ → Bool)
    (radius : ℕ) (cutoff : ℚ) (flag : Call) (ws : List WellId) (pm : PlateMap)
    (x : WellId) (h : x ∉ ws) :
    (check_square_from cmp radius cutoff flag pm ws).res x = pm.res x := by
  induction ws generalizing pm with
  | nil => rfl
  | cons w rest ih =>
    rw [check_square_from, ih _ (fun hx => h (List.mem_cons_of_mem w hx)),
      process_well_res_ne cmp pm radius cutoff flag w x
        (fun hx => h (hx ▸ List.mem_cons_self w rest))]

theorem listAnyCongr {α : Type} (l : List α) (p q : α → Bool)
    (h : ∀ a ∈ l, p a = q a) : l.any p = l.any q := by
  induction l with
  | nil => rfl
  | cons a rest ih =>
    rw [List.any_cons, List.any_cons, h a (List.mem_cons_self a rest),
      ih (fun b hb => h b (List.mem_cons_of_mem a hb))]

theorem listAnyMapCongr {α β : Type} (l : List α) (f g : α → β) (p : β → Bool)
    (h : ∀ a ∈ l, p (f a) = p (g a)) :
    (l.map f).any p = l.any (fun a => p (g a)) := by
  induction l with
  | nil => rfl
  | cons a rest ih =>
    rw [List.map_cons, List.any_cons, List.any_cons, h a (List.mem_cons_self a rest),
      ih (fun b hb => h b (List.mem_cons_of_mem a hb))]

/-- The scanner may only rewrite a call to the pass's flag, and only on a
record whose call was in the positive family at the start of the pass. -/
def CallsShift (flag : Call) (pm₀ pm₁ : PlateMap) : Prop :=
  pm₁.keys = pm₀.keys ∧
    ∀ x, pm₁.res x = pm₀.res x ∨
      ((pm₀.res x).call.is_positive = true ∧ pm₁.res x = setCall (pm₀.res x) flag)

theorem callsShift_refl (flag : Call) (pm : PlateMap) : CallsShift flag pm pm :=
  ⟨rfl, fun _ => Or.inl rfl⟩

theorem process_well_callsShift (cmp : WellResults → WellResults → ℚ → Bool)
    (radius : ℕ) (cutoff : ℚ) (flag : Call) (w : WellId) (pm₀ pm₁ : PlateMap)
    (h : CallsShift flag pm₀ pm₁) :
    CallsShift flag pm₀ (process_well cmp pm₁ radius cutoff flag w) := by
  refine ⟨by rw [process_well_keys]; exact h.1, fun x => ?_⟩
  by_cases hx : x = w
  · subst hx
    rw [process_well_res_self]
    split
    · rcases scan_neighbors_cases cmp cutoff flag (pm₁.res x)
          ((neighborsOf pm₁ radius x).map pm₁.res) with hs | hs
      · rw [hs]
        exact h.2 x
      · rw [hs]
        rcases h.2 x with he | ⟨hpos, he⟩
        · rw [he]
          refine Or.inr ⟨?_, rfl⟩
          rename_i hp
          rw [he] at hp
          exact hp
        · rw [he, setCall_setCall]
          exact Or.inr ⟨hpos, rfl⟩
    · exact h.2 x
  · rw [process_well_res_ne cmp pm₁ radius cutoff flag w x hx]
    exact h.2 x

theorem check_square_from_callsShift (cmp : WellResults → WellResults → ℚ → Bool)
    (radius : ℕ) (cutoff : ℚ) (flag : Call) (ws : List WellId) (pm₀ pm₁ : PlateMap)
    (h : CallsShift flag pm₀ pm₁) :
    CallsShift flag pm₀ (check_square_from cmp radius cutoff flag pm₁ ws) := by
  induction ws generalizing pm₁ with
  | nil => exact h
  | cons w rest ih =>
    rw [check_square_from]
    exact ih _ (process_well_callsShift cmp radius cutoff flag w pm₀ pm₁ h)

theorem check_square_from_char (cmp : WellResults → WellResults → ℚ → Bool)
    (radius : ℕ) (cutoff : ℚ) (flag : Call)
    (hcmp : ∀ r o q, cmp r (setCall o flag) q = cmp r o q)
    (ws : List WellId) (pm pm₁ : PlateMap) (hshift : CallsShift flag pm pm₁)
    (hnd : ws.Nodup) (hag : ∀ x ∈ ws, pm₁.res x = pm.res x) (x : WellId) :
    (check_square_from cmp radius cutoff flag pm₁ ws).res x =
      if x ∈ ws then stepRes cmp pm radius cutoff flag x else pm₁.res x := by
  induction ws generalizing pm₁ with
  | nil => rfl
  | cons w rest ih =>
    have hwr : w ∉ rest := (List.nodup_cons.mp hnd).1
    have hndr : rest.Nodup := (List.nodup_cons.mp hnd).2
    have hshift₂ : CallsShift flag pm (process_well cmp pm₁ radius cutoff flag w) :=
      process_well_callsShift cmp radius cutoff flag w pm pm₁ hshift
    have hag₂ : ∀ y ∈ rest, (process_well cmp pm₁ radius cutoff flag w).res y = pm.res y := by
      intro y hy
      rw [process_well_res_ne cmp pm₁ radius cutoff flag w y (fun he => hwr (he ▸ hy))]
      exact hag y (List.mem_cons_of_mem w hy)
    have hw : (process_well cmp pm₁ radius cutoff flag w).res w =
        stepRes cmp pm radius cutoff flag w := by
      rw [process_well_res_self, hag w (List.mem_cons_self w rest)]
      have hnbr : neighborsOf pm₁ radius w = neighborsOf pm radius w := by
        simp only [neighborsOf, hshift.1]
      by_cases hp : (pm.res w).call.is_positive = true
      case neg =>
        have hp0 : (pm.res w).call.is_positive = false := by
          revert hp
          cases (pm.res w).call.is_positive <;> simp
        rw [if_neg hp, stepRes, if_neg (by simp [hp0])]
      case pos =>
        rw [if_pos hp, scan_neighbors_positive cmp cutoff flag _ hp, hnbr]
        have hany : ((neighborsOf pm radius w).map pm₁.res).any
              (fun o => cmp (pm.res w) o cutoff) =
            (neighborsOf pm radius w).any (fun o => cmp (pm.res w) (pm.res o) cutoff) := by
          refine listAnyMapCongr _ pm₁.res pm.res _ (fun o _ => ?_)
          rcases hshift.2 o with he | ⟨_, he⟩
          · rw [he]
          · rw [he, hcmp]
        rw [hany, stepRes, wouldFlag, hp]
        simp only [Bool.true_and]
    rw [check_square_from, ih _ hshift₂ hndr hag₂]
    by_cases hxr : x ∈ rest
    · rw [if_pos hxr, if_pos (List.mem_cons_of_mem w hxr)]
    · rw [if_neg hxr]
      by_cases hxw : x = w
      · subst hxw
        rw [if_pos (List.mem_cons_self x rest), hw]
      · rw [if_neg (by simp [hxw, hxr]),
          process_well_res_ne cmp pm₁ radius cutoff flag w x hxw]

/-- Pointwise description of one full check_square pass: on a duplicate-free
plate, a well ends the pass flagged iff its call was in the positive family
and some neighbour in its square triggers the comparison; every other record
is untouched.  The hypothesis on cmp says the comparison ignores the call
field of the neighbour, true of both implemented comparisons. -/
theorem check_square_char (cmp : WellResults → WellResults → ℚ → Bool)
    (pm : PlateMap) (radius : ℕ) (cutoff : ℚ) (flag : Call)
    (hcmp : ∀ r o q, cmp r (setCall o flag) q = cmp r o q)
    (hnd : pm.keys.Nodup) (x : WellId) :
    (check_square cmp pm radius cutoff flag).res x =
      if x ∈ pm.keys then stepRes cmp pm radius cutoff flag x else pm.res x :=
  check_square_from_char cmp radius cutoff flag hcmp pm.keys pm pm
    (callsShift_refl flag pm) hnd (fun _ _ => rfl) x

theorem check_square_keys (cmp : WellResults → WellResults → ℚ → Bool)
    (pm : PlateMap) (radius : ℕ) (cutoff : ℚ) (flag : Call) :
    (check_square cmp pm radius cutoff flag).keys = pm.keys :=
  check_square_from_keys cmp radius cutoff flag pm.keys pm

theorem mem_intRange (z lo : ℤ) (n : ℕ) :
    z ∈ intRange lo n ↔ lo ≤ z ∧ z < lo + n := by
  induction n generalizing lo with
  | zero => simp [intRange]
  | succ k ih =>
    simp [intRange, ih (lo + 1)]
    omega

theorem mem_squareWells (o w : WellId) (radius : ℕ) :
    o ∈ squareWells w radius ↔
      w.row - radius ≤ o.row ∧ o.row ≤ w.row + radius ∧
      w.col - radius ≤ o.col ∧ o.col ≤ w.col + radius := by
  constructor
  · intro h
    obtain ⟨l, hl, hol⟩ := List.mem_flatten.mp h
    obtain ⟨r, hr, rfl⟩ := List.mem_map.mp hl
    obtain ⟨c, hc, rfl⟩ := List.mem_map.mp hol
    have h1 := (mem_intRange r _ _).mp hr
    have h2 := (mem_intRange c _ _).mp hc
    dsimp only at h1 h2 ⊢
    refine ⟨by omega, by omega, by omega, by omega⟩
  · rintro ⟨h1, h2, h3, h4⟩
    refine List.mem_flatten.mpr
      ⟨(intRange (w.col - radius) (2 * radius + 1)).map (fun c => WellId.mk o.row c),
        List.mem_map.mpr ⟨o.row, (mem_intRange _ _ _).mpr (by omega), rfl⟩,
        List.mem_map.mpr ⟨o.col, (mem_intRange _ _ _).mpr (by omega), rfl⟩⟩

theorem squareWells_self_zero (w : WellId) : squareWells w 0 = [w] := by
  have h1 : ∀ lo : ℤ, intRange lo (2 * 0 + 1) = [lo] := fun lo => rfl
  simp [squareWells, h1]

theorem compare_wells_self (P : Protocol) (r : WellResults) (cutoff : ℚ)
    (h : 0 ≤ cutoff) : Protocol.compare_wells P r r cutoff = false := by
  rw [Protocol.compare_wells]
  cases hm : npMean ((virus_keys P).map r.gene_cts) with
  | none => rfl
  | some a =>
    simp only [sub_self]
    exact decide_eq_false (not_lt.mpr h)

theorem process_well_zero_id (cmp : WellResults → WellResults → ℚ → Bool)
    (pm : PlateMap) (cutoff : ℚ) (flag : Call) (w : WellId)
    (hself : ∀ r, cmp r r cutoff = false) :
    process_well cmp pm 0 cutoff flag w = pm := by
  rw [process_well]
  by_cases hp : (pm.res w).call.is_positive = true
  · rw [if_neg (by simp [hp]), squareWells_self_zero]
    have hscan : scan_neighbors cmp cutoff flag (pm.res w)
        ((List.filter (fun o => decide (o ∈ pm.keys)) [w]).map pm.res) = pm.res w := by
      by_cases hk : w ∈ pm.keys
      · rw [List.filter_cons_of_pos (by simpa using hk), List.filter_nil,
          List.map_cons, List.map_nil, scan_neighbors,
          if_neg (by simp [hself (pm.res w)])]
        rfl
      · rw [List.filter_cons_of_neg (by simpa using hk), List.filter_nil, List.map_nil]
        rfl
    dsimp only
    rw [hscan, Function.update_eq_self]
  · rw [if_pos]
    simp only [Bool.not_eq_true] at hp
    simp [hp]

theorem check_square_from_zero_id (cmp : WellResults → WellResults → ℚ → Bool)
    (cutoff : ℚ) (flag : Call) (hself : ∀ r, cmp r r cutoff = false)
    (ws : List WellId) (pm : PlateMap) :
    check_square_from cmp 0 cutoff flag pm ws = pm := by
  induction ws with
  | nil => rfl
  | cons w rest ih =>
    rw [check_square_from, process_well_zero_id cmp pm cutoff flag w hself, ih]

/-- Claim C8: a radius-0 scan with a nonnegative cutoff is the identity on
the plate: the only neighbour is the well itself, and the self-comparison
(zero difference, or NaN on incomplete data) never exceeds the cutoff. -/
theorem check_square_radius_zero_id (P : Protocol) (pm : PlateMap) (cutoff : ℚ)
    (flag : Call) (h : 0 ≤ cutoff) :
    check_square (Protocol.compare_wells P) pm 0 cutoff flag = pm := by
  rw [check_square]
  exact check_square_from_zero_id (Protocol.compare_wells P) cutoff flag
    (fun r => compare_wells_self P r cutoff h) pm.keys pm

/-- Claim C2 (amended): within one scan pass, a well's record is either
untouched or, when its call was in the positive family (is_positive) at
the start of the pass, rewritten to carry the pass's flag; in particular a
well whose call is not in the positive family is never modified. -/
theorem check_square_only_escalates (cmp : WellResults → WellResults → ℚ → Bool)
    (pm : PlateMap) (radius : ℕ) (cutoff : ℚ) (flag : Call) (x : WellId) :
    ((check_square cmp pm radius cutoff flag).res x = pm.res x ∨
      ((pm.res x).call.is_positive = true ∧
        (check_square cmp pm radius cutoff flag).res x = setCall (pm.res x) flag)) ∧
    ((pm.res x).call.is_positive = false →
      (check_square cmp pm radius cutoff flag).res x = pm.res x) := by
  have h := (check_square_from_callsShift cmp radius cutoff flag pm.keys pm pm
    (callsShift_refl flag pm)).2 x
  refine ⟨h, fun hneg => ?_⟩
  rcases h with he | ⟨hpos, _⟩
  · exact he
  · rw [hneg] at hpos
    exact absurd hpos (by simp)

theorem neighborsOf_congr (pm₁ pm₂ : PlateMap) (radius : ℕ) (w : WellId)
    (h : ∀ o, o ∈ pm₁.keys ↔ o ∈ pm₂.keys) :
    neighborsOf pm₁ radius w = neighborsOf pm₂ radius w := by
  rw [neighborsOf, neighborsOf]
  exact List.filter_congr (fun o _ => decide_eq_decide.mpr (h o))

/-- Claim C9: the outcome of one check_square pass does not depend on the
iteration order of the wells: two plates holding the same records, with
the same key set in different insertion orders, end the pass with equal
records everywhere.  The hypothesis on cmp says the comparison ignores
the call field of the neighbour, true of both implemented comparisons. -/
theorem check_square_order_irrelevant (cmp : WellResults → WellResults → ℚ → Bool)
    (pm₁ pm₂ : PlateMap) (radius : ℕ) (cutoff : ℚ) (flag : Call)
    (hcmp : ∀ r o q, cmp r (setCall o flag) q = cmp r o q)
    (hperm : pm₁.keys.Perm pm₂.keys) (hres : pm₁.res = pm₂.res)
    (hnd : pm₁.keys.Nodup) (x : WellId) :
    (check_square cmp pm₁ radius cutoff flag).res x =
      (check_square cmp pm₂ radius cutoff flag).res x := by
  have hnd₂ : pm₂.keys.Nodup := hperm.nodup hnd
  have hmem : ∀ o, o ∈ pm₁.keys ↔ o ∈ pm₂.keys := fun o => hperm.mem_iff
  have hnbr : neighborsOf pm₁ radius x = neighborsOf pm₂ radius x :=
    neighborsOf_congr pm₁ pm₂ radius x hmem
  rw [check_square_char cmp pm₁ radius cutoff flag hcmp hnd x,
    check_square_char cmp pm₂ radius cutoff flag hcmp hnd₂ x]
  by_cases hx : x ∈ pm₁.keys
  · rw [if_pos hx, if_pos ((hmem x).mp hx), stepRes, stepRes, wouldFlag, wouldFlag,
      hnbr, hres]
  · rw [if_neg hx, if_neg (fun hh => hx ((hmem x).mpr hh)), hres]

/-- A positive well whose virus genes read high. -/
def demoResHigh : WellResults :=
  { accession := "A1", call := Call.POS,
    gene_cts := fun g => if g = "N" then some 40 else if g = "E" then some 40 else none }

/-- A well whose virus genes read very low, a contamination source. -/
def demoResLow (c : Call) : WellResults :=
  { accession := "A2", call := c,
    gene_cts := fun g => if g = "N" then some 1 else if g = "E" then some 1 else none }

/-- A filler record for ids outside the plate. -/
def demoResBlank : WellResults :=
  { accession := "MISSING", call := Call.NEG, gene_cts := fun _ => none }

/-- A two-well plate: A1 reads high, A2 reads low and carries call c. -/
def demoPlate (c : Call) : PlateMap :=
  { keys := [WellId.mk 65 1, WellId.mk 65 2],
    res := fun w =>
      if w = WellId.mk 65 1 then demoResHigh
      else if w = WellId.mk 65 2 then demoResLow c
      else demoResBlank }

/-- The same plate with the two dict keys in the opposite insertion order. -/
def demoPlateRev (c : Call) : PlateMap :=
  { keys := [WellId.mk 65 2, WellId.mk 65 1],
    res := (demoPlate c).res }

/-- Claim C9 witness: on a concrete two-well plate the scan result at A1
is the same for both iteration orders. -/
theorem check_square_order_irrelevant_witness :
    (check_square (Protocol.compare_wells SOP_V2) (demoPlate Call.POS) 1 10
        Call.POS_CLUSTER).res (WellId.mk 65 1) =
      (check_square (Protocol.compare_wells SOP_V2) (demoPlateRev Call.POS) 1 10
        Call.POS_CLUSTER).res (WellId.mk 65 1) :=
  check_square_order_irrelevant (Protocol.compare_wells SOP_V2)
    (demoPlate Call.POS) (demoPlateRev Call.POS) 1 10 Call.POS_CLUSTER
    (fun r o q => rfl) (by decide) rfl (by decide) (WellId.mk 65 1)

/-- Claim C10: the escalation decision never consults a neighbour's call:
changing only the call field of one well n leaves every other well's final
record unchanged (for any comparison that reads neighbours only through
their gene Cts, as both implemented comparisons do); and concretely, under
the V3 per-gene comparison a Positive well is escalated because of a
neighbour whose own call is Negative. -/
theorem check_square_neighbor_call_blind :
    (∀ (cmp : WellResults → WellResults → ℚ → Bool) (pm₁ pm₂ : PlateMap)
      (radius : ℕ) (cutoff : ℚ) (flag : Call) (n : WellId),
      (∀ r o o' q, o.gene_cts = o'.gene_cts → cmp r o q = cmp r o' q) →
      pm₂.keys = pm₁.keys → pm₁.keys.Nodup →
      (∀ y, y ≠ n → pm₂.res y = pm₁.res y) →
      (pm₂.res n).gene_cts = (pm₁.res n).gene_cts →
      ∀ x, x ≠ n →
        (check_square cmp pm₂ radius cutoff flag).res x =
          (check_square cmp pm₁ radius cutoff flag).res x) ∧
    (((check_square (V3Protocol.compare_wells SOP_V3) (demoPlate Call.NEG) 1 15
        Call.POS_CLUSTER).res (WellId.mk 65 1)).call = Call.POS_CLUSTER ∧
      ((demoPlate Call.NEG).res (WellId.mk 65 2)).call = Call.NEG) := by
  constructor
  · intro cmp pm₁ pm₂ radius cutoff flag n hdep hk hnd hy hct x hxn
    have hcmp : ∀ r o q, cmp r (setCall o flag) q = cmp r o q :=
      fun r o q => hdep r _ o q rfl
    have hnd₂ : pm₂.keys.Nodup := hk ▸ hnd
    have hmem : ∀ o, o ∈ pm₂.keys ↔ o ∈ pm₁.keys := fun o => by rw [hk]
    have hnbr : neighborsOf pm₂ radius x = neighborsOf pm₁ radius x :=
      neighborsOf_congr pm₂ pm₁ radius x hmem
    have h1 : pm₂.res x = pm₁.res x := hy x hxn
    rw [check_square_char cmp pm₂ radius cutoff flag hcmp hnd₂ x,
      check_square_char cmp pm₁ radius cutoff flag hcmp hnd x]
    by_cases hx : x ∈ pm₂.keys
    · have hany : (neighborsOf pm₁ radius x).any
            (fun o => cmp (pm₁.res x) (pm₂.res o) cutoff) =
          (neighborsOf pm₁ radius x).any
            (fun o => cmp (pm₁.res x) (pm₁.res o) cutoff) := by
        refine listAnyCongr _ _ _ (fun o _ => ?_)
        by_cases ho : o = n
        · subst ho
          exact hdep _ _ _ _ hct
        · rw [hy o ho]
      rw [if_pos hx, if_pos ((hmem x).mp hx), stepRes, stepRes, wouldFlag, wouldFlag,
        hnbr, h1, hany]
    · rw [if_neg hx, if_neg (fun hh => hx ((hmem x).mpr hh)), h1]
  · constructor
    · have hcmp : ∀ r o q, V3Protocol.compare_wells SOP_V3 r (setCall o Call.POS_CLUSTER) q =
          V3Protocol.compare_wells SOP_V3 r o q := fun r o q => rfl
      have hnd : (demoPlate Call.NEG).keys.Nodup := by decide
      rw [check_square_char (V3Protocol.compare_wells SOP_V3) (demoPlate Call.NEG)
        1 15 Call.POS_CLUSTER hcmp hnd (WellId.mk 65 1)]
      rw [if_pos (by decide : WellId.mk 65 1 ∈ (demoPlate Call.NEG).keys)]
      have hpos : ((demoPlate Call.NEG).res (WellId.mk 65 1)).call.is_positive = true := by
        decide
      have hflag : wouldFlag (V3Protocol.compare_wells SOP_V3) (demoPlate Call.NEG)
          1 15 (WellId.mk 65 1) = true := by
        rw [wouldFlag, List.any_eq_true]
        refine ⟨WellId.mk 65 2, List.mem_filter.mpr ⟨?_, by decide⟩, ?_⟩
        · exact (mem_squareWells (WellId.mk 65 2) (WellId.mk 65 1) 1).mpr (by decide)
        · show V3Protocol.compare_wells SOP_V3 ((demoPlate Call.NEG).res (WellId.mk 65 1))
            ((demoPlate Call.NEG).res (WellId.mk 65 2)) 15 = true
          simp [V3Protocol.compare_wells, virus_keys, SOP_V3, demoPlate, demoResHigh,
            demoResLow] <;> norm_num
      rw [stepRes, hpos, hflag]
      simp [setCall]
    · rfl

/-- Claim C10 witness: flipping A2's call from Positive to Negative does
not change the scanner's output at A1 on the concrete two-well plate. -/
theorem check_square_neighbor_call_blind_witness :
    (check_square (V3Protocol.compare_wells SOP_V3) (demoPlate Call.NEG) 1 15
        Call.POS_CLUSTER).res (WellId.mk 65 1) =
      (check_square (V3Protocol.compare_wells SOP_V3) (demoPlate Call.POS) 1 15
        Call.POS_CLUSTER).res (WellId.mk 65 1) :=
  check_square_neighbor_call_blind.1 (V3Protocol.compare_wells SOP_V3)
    (demoPlate Call.POS) (demoPlate Call.NEG) 1 15 Call.POS_CLUSTER (WellId.mk 65 2)
    (fun r o o' q h => by rw [V3Protocol.compare_wells, V3Protocol.compare_wells, h])
    rfl (by decide)
    (fun y hy => by
      by_cases h1 : y = WellId.mk 65 1
      · simp [demoPlate, h1]
      · simp [demoPlate, h1, hy])
    rfl (WellId.mk 65 1) (by decide)

/-- Claim C2 counterexample: on a concrete two-well SOP-V3 plate, the
hot-well pass escalates A1 to Positive-by-hot-well, and the subsequent
cluster pass of flag_contamination nevertheless treats A1 as a positive
candidate again (is_positive also covers the hot-well flag) and overwrites
its call with Positive-by-cluster. -/
theorem hotwell_then_cluster_overwrite :
    ((check_square (V3Protocol.compare_wells SOP_V3) (demoPlate Call.POS)
        SOP_V3.hot_well_radius SOP_V3.hot_well_cutoff Call.POS_HOTWELL).res
        (WellId.mk 65 1)).call = Call.POS_HOTWELL ∧
    ((V3Protocol.flag_contamination SOP_V3 (demoPlate Call.POS)).res
        (WellId.mk 65 1)).call = Call.POS_CLUSTER := by
  have hcmpH : ∀ r o q, V3Protocol.compare_wells SOP_V3 r (setCall o Call.POS_HOTWELL) q =
      V3Protocol.compare_wells SOP_V3 r o q := fun r o q => rfl
  have hcmpC : ∀ r o q, V3Protocol.compare_wells SOP_V3 r (setCall o Call.POS_CLUSTER) q =
      V3Protocol.compare_wells SOP_V3 r o q := fun r o q => rfl
  have hnd : (demoPlate Call.POS).keys.Nodup := by decide
  have hflagH : wouldFlag (V3Protocol.compare_wells SOP_V3) (demoPlate Call.POS)
      SOP_V3.hot_well_radius SOP_V3.hot_well_cutoff (WellId.mk 65 1) = true := by
    rw [wouldFlag, List.any_eq_true]
    refine ⟨WellId.mk 65 2, List.mem_filter.mpr ⟨?_, by decide⟩, ?_⟩
    · exact (mem_squareWells (WellId.mk 65 2) (WellId.mk 65 1) SOP_V3.hot_well_radius).mpr
        (by decide)
    · show V3Protocol.compare_wells SOP_V3 ((demoPlate Call.POS).res (WellId.mk 65 1))
        ((demoPlate Call.POS).res (WellId.mk 65 2)) SOP_V3.hot_well_cutoff = true
      simp [V3Protocol.compare_wells, virus_keys, SOP_V3, demoPlate, demoResHigh,
        demoResLow] <;> norm_num
  have h1 : (check_square (V3Protocol.compare_wells SOP_V3) (demoPlate Call.POS)
      SOP_V3.hot_well_radius SOP_V3.hot_well_cutoff Call.POS_HOTWELL).res (WellId.mk 65 1) =
      setCall ((demoPlate Call.POS).res (WellId.mk 65 1)) Call.POS_HOTWELL := by
    rw [check_square_char _ _ _ _ _ hcmpH hnd, if_pos (by decide), stepRes,
      hflagH, (by decide : ((demoPlate Call.POS).res (WellId.mk 65 1)).call.is_positive = true)]
    simp
  have hflagA2 : wouldFlag (V3Protocol.compare_wells SOP_V3) (demoPlate Call.POS)
      SOP_V3.hot_well_radius SOP_V3.hot_well_cutoff (WellId.mk 65 2) = false := by
    rw [wouldFlag, List.any_eq_false]
    intro o ho
    obtain ⟨hsq, hkeys⟩ := List.mem_filter.mp ho
    have hor : o = WellId.mk 65 1 ∨ o = WellId.mk 65 2 := by
      have : o ∈ (demoPlate Call.POS).keys := by simpa using hkeys
      simpa [demoPlate] using this
    rcases hor with rfl | rfl
    · show ¬ V3Protocol.compare_wells SOP_V3 ((demoPlate Call.POS).res (WellId.mk 65 2))
        ((demoPlate Call.POS).res (WellId.mk 65 1)) SOP_V3.hot_well_cutoff = true
      simp [V3Protocol.compare_wells, virus_keys, SOP_V3, demoPlate, demoResHigh,
        demoResLow] <;> norm_num
    · show ¬ V3Protocol.compare_wells SOP_V3 ((demoPlate Call.POS).res (WellId.mk 65 2))
        ((demoPlate Call.POS).res (WellId.mk 65 2)) SOP_V3.hot_well_cutoff = true
      simp [V3Protocol.compare_wells, virus_keys, SOP_V3, demoPlate, demoResLow] <;>
        norm_num
  have h2 : (check_square (V3Protocol.compare_wells SOP_V3) (demoPlate Call.POS)
      SOP_V3.hot_well_radius SOP_V3.hot_well_cutoff Call.POS_HOTWELL).res (WellId.mk 65 2) =
      (demoPlate Call.POS).res (WellId.mk 65 2) := by
    rw [check_square_char _ _ _ _ _ hcmpH hnd, if_pos (by decide), stepRes, hflagA2]
    simp
  have hk1 : (check_square (V3Protocol.compare_wells SOP_V3) (demoPlate Call.POS)
      SOP_V3.hot_well_radius SOP_V3.hot_well_cutoff Call.POS_HOTWELL).keys =
      (demoPlate Call.POS).keys := check_square_keys _ _ _ _ _
  have hnd1 : (check_square (V3Protocol.compare_wells SOP_V3) (demoPlate Call.POS)
      SOP_V3.hot_well_radius SOP_V3.hot_well_cutoff Call.POS_HOTWELL).keys.Nodup := by
    rw [hk1]
    exact hnd
  refine ⟨by rw [h1]; rfl, ?_⟩
  rw [V3Protocol.flag_contamination]
  rw [check_square_char _ _ _ _ _ hcmpC hnd1, if_pos (by rw [hk1]; decide), stepRes]
  have hpos1 : ((check_square (V3Protocol.compare_wells SOP_V3) (demoPlate Call.POS)
      SOP_V3.hot_well_radius SOP_V3.hot_well_cutoff Call.POS_HOTWELL).res
      (WellId.mk 65 1)).call.is_positive = true := by
    rw [h1]
    rfl
  have hflag2 : wouldFlag (V3Protocol.compare_wells SOP_V3)
      (check_square (V3Protocol.compare_wells SOP_V3) (demoPlate Call.POS)
        SOP_V3.hot_well_radius SOP_V3.hot_well_cutoff Call.POS_HOTWELL)
      SOP_V3.radius SOP_V3.pos_cluster_cutoff (WellId.mk 65 1) = true := by
    rw [wouldFlag, List.any_eq_true]
    refine ⟨WellId.mk 65 2, List.mem_filter.mpr ⟨?_, by rw [hk1]; decide⟩, ?_⟩
    · exact (mem_squareWells (WellId.mk 65 2) (WellId.mk 65 1) SOP_V3.radius).mpr (by decide)
    · rw [h1, h2]
      show V3Protocol.compare_wells SOP_V3
        (setCall ((demoPlate Call.POS).res (WellId.mk 65 1)) Call.POS_HOTWELL)
        ((demoPlate Call.POS).res (WellId.mk 65 2)) SOP_V3.pos_cluster_cutoff = true
      simp [V3Protocol.compare_wells, virus_keys, SOP_V3, demoPlate, demoResHigh,
        demoResLow, setCall] <;> norm_num
  rw [hpos1, hflag2]
  simp [setCall]

/-- Claim C2 (amended) witness: a well whose call is Negative is untouched
by a scan pass. -/
theorem check_square_only_escalates_witness :
    (check_square (V3Protocol.compare_wells SOP_V3) (demoPlate Call.NEG) 1 15
        Call.POS_CLUSTER).res (WellId.mk 65 2) =
      (demoPlate Call.NEG).res (WellId.mk 65 2) :=
  (check_square_only_escalates (V3Protocol.compare_wells SOP_V3) (demoPlate Call.NEG)
    1 15 Call.POS_CLUSTER (WellId.mk 65 2)).2 (by decide)

/-- Claim C8 witness: a radius-0 scan with cutoff 0 leaves the concrete
two-well plate unchanged. -/
theorem check_square_radius_zero_id_witness :
    check_square (Protocol.compare_wells SOP_V2) (demoPlate Call.POS) 0 0
      Call.POS_CLUSTER = demoPlate Call.POS :=
  check_square_radius_zero_id SOP_V2 (demoPlate Call.POS) 0 Call.POS_CLUSTER le_rfl

theorem optValues_of_none_mem (l : List (Option ℚ)) (h : none ∈ l) :
    optValues l = none := by
  induction l with
  | nil => exact absurd h (List.not_mem_nil none)
  | cons v rest ih =>
    cases v with
    | none => rfl
    | some q =>
      have hr : none ∈ rest := by
        rcases List.mem_cons.mp h with hc | hr
        · exact absurd hc (by simp)
        · exact hr
      rw [optValues, ih hr]
      rfl

theorem npMean_of_none_mem (l : List (Option ℚ)) (h : none ∈ l) :
    npMean l = none := by
  rw [npMean, optValues_of_none_mem l h]

theorem optValues_all_some (l : List (Option ℚ)) (h : ∀ v ∈ l, v.isSome = true) :
    optValues l = some (l.map (fun v => v.getD 0)) := by
  induction l with
  | nil => rfl
  | cons v rest ih =>
    cases v with
    | none => exact absurd (h none (List.mem_cons_self _ _)) (by simp)
    | some q =>
      rw [optValues, ih (fun v hv => h v (List.mem_cons_of_mem _ hv))]
      rfl

theorem npMean_all_some (l : List (Option ℚ)) (hne : l ≠ [])
    (h : ∀ v ∈ l, v.isSome = true) :
    npMean l = some ((l.map (fun v => v.getD 0)).sum /
      (l.map (fun v => v.getD 0)).length) := by
  cases l with
  | nil => exact absurd rfl hne
  | cons a rest =>
    rw [npMean, optValues_all_some _ h]
    rfl

/-- Claim C3: the base comparison returns false as soon as any virus-gene
Ct of either well is NaN, and on complete data it returns true exactly
when the mean of the first well's virus Cts minus the mean of the second
well's exceeds the cutoff. -/
theorem compare_wells_spec (P : Protocol) (a b : WellResults) (cutoff : ℚ) :
    ((∃ g ∈ virus_keys P, a.gene_cts g = none ∨ b.gene_cts g = none) →
      Protocol.compare_wells P a b cutoff = false) ∧
    (virus_keys P ≠ [] →
      (∀ g ∈ virus_keys P, (a.gene_cts g).isSome = true ∧ (b.gene_cts g).isSome = true) →
      (Protocol.compare_wells P a b cutoff = true ↔
        ((virus_keys P).map (fun g => (a.gene_cts g).getD 0)).sum /
            ((virus_keys P).length : ℚ) -
          ((virus_keys P).map (fun g => (b.gene_cts g).getD 0)).sum /
            ((virus_keys P).length : ℚ) > cutoff)) := by
  constructor
  · rintro ⟨g, hg, hnone | hnone⟩
    · have hm : npMean ((virus_keys P).map a.gene_cts) = none :=
        npMean_of_none_mem _ (List.mem_map.mpr ⟨g, hg, hnone⟩)
      rw [Protocol.compare_wells, hm]
    · have hm : npMean ((virus_keys P).map b.gene_cts) = none :=
        npMean_of_none_mem _ (List.mem_map.mpr ⟨g, hg, hnone⟩)
      rw [Protocol.compare_wells, hm]
      cases npMean ((virus_keys P).map a.gene_cts) <;> rfl
  · intro hne hall
    have hmapne : ∀ (f : Gene → Option ℚ), (virus_keys P).map f ≠ [] := by
      intro f h
      exact hne (List.map_eq_nil_iff.mp h)
    have ha := npMean_all_some ((virus_keys P).map a.gene_cts) (hmapne _)
      (by
        intro v hv
        obtain ⟨g, hg, rfl⟩ := List.mem_map.mp hv
        exact (hall g hg).1)
    have hb := npMean_all_some ((virus_keys P).map b.gene_cts) (hmapne _)
      (by
        intro v hv
        obtain ⟨g, hg, rfl⟩ := List.mem_map.mp hv
        exact (hall g hg).2)
    rw [Protocol.compare_wells, ha, hb]
    simp only [List.map_map, List.length_map, Function.comp_def, decide_eq_true_eq]

/-- Claim C3 witness: a pair with missing data never triggers, and a
complete pair triggers exactly by the mean difference. -/
theorem compare_wells_spec_witness :
    Protocol.compare_wells SOP_V2 demoResBlank demoResBlank 10 = false ∧
    Protocol.compare_wells SOP_V2 demoResHigh (demoResLow Call.POS) 10 = true :=
  ⟨(compare_wells_spec SOP_V2 demoResBlank demoResBlank 10).1
      ⟨"N", by simp [virus_keys, SOP_V2], Or.inl rfl⟩,
    ((compare_wells_spec SOP_V2 demoResHigh (demoResLow Call.POS) 10).2
      (by simp [virus_keys, SOP_V2])
      (by
        intro g hg
        simp only [virus_keys, SOP_V2, List.map_cons, List.map_nil, List.mem_cons,
          List.not_mem_nil, or_false] at hg
        rcases hg with rfl | rfl
        · exact ⟨by decide, by decide⟩
        · exact ⟨by decide, by decide⟩)).mpr
      (by
        simp [virus_keys, SOP_V2, demoResHigh, demoResLow]
        norm_num)⟩
